import Mathlib

/-!
Verification development for the Friends-Messenger server core
(`server.py`, `db.py`): connection/session registry, protocol dispatcher,
broadcast/presence engine, and the persistence-layer validation logic.

The Python source is embedded shallowly:
* dictionaries/sets become association lists / lists of keys,
* the per-frame handler body (`server.py`, `handler`) becomes a pure step
  function from (database, registry state, frame) to (new states, outputs),
* every transmission attempt (`ws.send`) becomes an element of an output
  trace; a `bcastStart` marker records each invocation of `broadcast`,
* machine-level effects (PBKDF2, base64, fresh salts) are parameters
  gathered in a `Crypto` structure, since they live outside the repository.
-/

namespace Messenger

/-- Python `a or b` on strings: the empty string is falsy
(`msg.get("kind") or "text"` in `server.py`). -/
def pyOrS (s d : String) : String :=
  if s = "" then d else s

/-- Python `msg.get(k) or d`: `None` and the empty string are falsy. -/
def pyOrO (o : Option String) (d : String) : String :=
  match o with
  | none => d
  | some s => if s = "" then d else s

/-- Python `str.lower` restricted to ASCII (the usernames handled by the
server are created ASCII-validated; full Unicode case mapping is out of
scope of this model). -/
def lowerCh (c : Char) : Char :=
  if 65 ≤ c.toNat && c.toNat ≤ 90 then Char.ofNat (c.toNat + 32) else c

def pyLower (s : String) : String :=
  String.mk (s.data.map lowerCh)

/-- Python `str.strip()`: drop leading and trailing whitespace. -/
def pyStrip (s : String) : String :=
  String.mk (((s.data.dropWhile Char.isWhitespace).reverse.dropWhile
    Char.isWhitespace).reverse)

/-- Code-point lexicographic comparison, Python's `<=` on strings. -/
def charListLe : List Char → List Char → Bool
  | [], _ => true
  | _ :: _, [] => false
  | a :: as, b :: bs =>
    if a.toNat < b.toNat then true
    else if b.toNat < a.toNat then false
    else charListLe as bs

theorem charListLe_total (as bs : List Char) :
    charListLe as bs = true ∨ charListLe bs as = true := by
  induction as generalizing bs with
  | nil => left; rfl
  | cons a as ih =>
    cases bs with
    | nil => right; rfl
    | cons b bs =>
      by_cases h1 : a.toNat < b.toNat
      · left; simp [charListLe, h1]
      · by_cases h2 : b.toNat < a.toNat
        · right; simp [charListLe, h2]
        · rcases ih bs with h | h
          · left; simp [charListLe, h1, h2, h]
          · right; simp [charListLe, h1, h2, h]

theorem charListLe_trans (as : List Char) : ∀ bs cs,
    charListLe as bs = true → charListLe bs cs = true →
      charListLe as cs = true := by
  induction as with
  | nil => intro bs cs h1 h2; rfl
  | cons a as ih =>
    intro bs cs h1 h2
    cases bs with
    | nil => simp [charListLe] at h1
    | cons b bs =>
      cases cs with
      | nil => simp [charListLe] at h2
      | cons c cs =>
        simp only [charListLe] at h1 h2 ⊢
        by_cases hab : a.toNat < b.toNat
        · by_cases hbc : b.toNat < c.toNat
          · simp [show a.toNat < c.toNat by omega]
          · by_cases hcb : c.toNat < b.toNat
            · simp [hbc, hcb] at h2
            · simp [show a.toNat < c.toNat by omega]
        · by_cases hba : b.toNat < a.toNat
          · simp [hab, hba] at h1
          · by_cases hbc : b.toNat < c.toNat
            · simp [show a.toNat < c.toNat by omega]
            · by_cases hcb : c.toNat < b.toNat
              · simp [hbc, hcb] at h2
              · have hac : ¬ a.toNat < c.toNat := by omega
                have hca : ¬ c.toNat < a.toNat := by omega
                simp only [hab, hba, if_neg, if_false] at h1
                simp only [hbc, hcb, if_neg, if_false] at h2
                simp [hac, hca]
                exact ih bs cs h1 h2

/-- Python `s.split(sep, maxsplit)` for a single-character separator:
at most `maxs` splits, the remainder is the last field. -/
def pySplitChar (sep : Char) : Nat → List Char → List Char → List String
  | _, acc, [] => [String.mk acc.reverse]
  | 0, acc, rest => [String.mk (acc.reverse ++ rest)]
  | m + 1, acc, c :: cs =>
    if c = sep then String.mk acc.reverse :: pySplitChar sep m [] cs
    else pySplitChar sep (m + 1) (c :: acc) cs

def pyStartsWith (c : Char) (s : String) : Bool :=
  match s.data with
  | [] => false
  | a :: _ => a = c

def pyTail (s : String) : String :=
  String.mk s.data.tail

/-- A per-connection session, mirroring the `SESSIONS` dict values in
`server.py`: `{"authed": False}` on accept, or
`{"authed": True, "user_id": .., "username": .., "is_admin": ..}`
after a successful login. -/
inductive Session where
  | unauth : Session
  | auth (userId : Nat) (username : String) (isAdmin : Bool) : Session
deriving DecidableEq, Repr

/-- The server's shared mutable state: `CONNS` (a set of connection
handles, modelled as a list of distinct keys) and `SESSIONS` (a dict,
modelled as an association list). -/
structure SrvState where
  conns : List Nat
  sessions : List (Nat × Session)
deriving DecidableEq, Repr

def initState : SrvState := ⟨[], []⟩

/-- `SESSIONS.get(ws)`. -/
def lookupSess (l : List (Nat × Session)) (k : Nat) : Option Session :=
  (l.find? (fun p => p.1 = k)).map (fun p => p.2)

/-- `SESSIONS[ws] = v`: dict assignment (update in place, or append a new
key). -/
def setSess (l : List (Nat × Session)) (k : Nat) (v : Session) :
    List (Nat × Session) :=
  if l.any (fun p => p.1 = k) then
    l.map (fun p => if p.1 = k then (k, v) else p)
  else l ++ [(k, v)]

/-- `CONNS.add(ws)`: set insertion. -/
def addConn (l : List Nat) (k : Nat) : List Nat :=
  if k ∈ l then l else l ++ [k]

/-- `CONNS.discard(ws); SESSIONS.pop(ws, None)` — the state mutation part
of `cleanup_ws` (`server.py` lines 56-57). -/
def removeConn (st : SrvState) (w : Nat) : SrvState :=
  ⟨st.conns.filter (fun c => c ≠ w), st.sessions.filter (fun p => p.1 ≠ w)⟩

/-- The truthiness test `s.get("authed") and s.get("username")` used by
`online_usernames`: an authenticated session contributes its username when
that username is non-empty. -/
def sessionOnlineName : Session → Option String
  | .unauth => none
  | .auth _ un _ => if un = "" then none else some un

/-- Case-insensitive comparison used by
`sorted(set(names), key=lambda x: x.lower())`. -/
def strLeCI (a b : String) : Prop :=
  charListLe (pyLower a).data (pyLower b).data = true

instance : DecidableRel strLeCI := fun a b =>
  inferInstanceAs (Decidable (charListLe (pyLower a).data (pyLower b).data = true))

instance : IsTotal String strLeCI :=
  ⟨fun a b => charListLe_total (pyLower a).data (pyLower b).data⟩

instance : IsTrans String strLeCI :=
  ⟨fun _ b _ h1 h2 => charListLe_trans _ (pyLower b).data _ h1 h2⟩

/-- `online_usernames` (`server.py` lines 30-36): collect the usernames of
sessions that are authenticated (and have a truthy username), then
`sorted(set(names), key=lambda x: x.lower())`. -/
def online_usernames (sessions : List (Nat × Session)) : List String :=
  let names := sessions.filterMap (fun p => sessionOnlineName p.2)
  List.insertionSort strLeCI names.dedup

/-- Registry operations, as the spec's Connection Registry contract names
them; each is the exact state mutation the server performs:
`register` = `handler` lines 69-70, `authenticate` = lines 91-96,
`unregister` = `cleanup_ws` lines 56-57. -/
inductive RegOp where
  | register (ws : Nat) : RegOp
  | authenticate (ws : Nat) (userId : Nat) (username : String) (isAdmin : Bool) : RegOp
  | unregister (ws : Nat) : RegOp
deriving DecidableEq, Repr

def applyOp (st : SrvState) : RegOp → SrvState
  | .register ws => ⟨addConn st.conns ws, setSess st.sessions ws .unauth⟩
  | .authenticate ws uid un adm => ⟨st.conns, setSess st.sessions ws (.auth uid un adm)⟩
  | .unregister ws => removeConn st ws

def applyOps (st : SrvState) (ops : List RegOp) : SrvState :=
  ops.foldl applyOp st

/-- An `authenticate` registry op coming from a *successful login* carries
a username drawn from the users table, where `create_user` enforces
length 3..32; such an op never carries the empty string. -/
def authOpOk : RegOp → Bool
  | .authenticate _ _ un _ => un ≠ ""
  | _ => true

/-- Invariant: every authenticated session in the registry has a
non-empty username. -/
def authedNonempty (sessions : List (Nat × Session)) : Prop :=
  ∀ p ∈ sessions, ∀ uid un adm, p.2 = Session.auth uid un adm → un ≠ ""

theorem mem_setSess {l : List (Nat × Session)} {k : Nat} {v : Session}
    {p : Nat × Session} (h : p ∈ setSess l k v) : p = (k, v) ∨ p ∈ l := by
  unfold setSess at h
  by_cases hk : l.any (fun p => p.1 = k)
  · rw [if_pos hk, List.mem_map] at h
    obtain ⟨q, hq, hqe⟩ := h
    by_cases hq1 : q.1 = k
    · rw [if_pos hq1] at hqe
      exact Or.inl hqe.symm
    · rw [if_neg hq1] at hqe
      exact Or.inr (hqe ▸ hq)
  · rw [if_neg hk, List.mem_append] at h
    rcases h with h | h
    · exact Or.inr h
    · exact Or.inl (List.mem_singleton.mp h)

theorem authedNonempty_applyOp {st : SrvState} {op : RegOp}
    (hst : authedNonempty st.sessions) (hop : authOpOk op = true) :
    authedNonempty (applyOp st op).sessions := by
  cases op with
  | register ws =>
    intro p hp uid un adm hpe
    rcases mem_setSess hp with h | h
    · rw [h] at hpe; cases hpe
    · exact hst p h uid un adm hpe
  | authenticate ws uid0 un0 adm0 =>
    intro p hp uid un adm hpe
    rcases mem_setSess hp with h | h
    · rw [h] at hpe
      cases hpe
      simpa [authOpOk] using hop
    · exact hst p h uid un adm hpe
  | unregister ws =>
    intro p hp uid un adm hpe
    exact hst p (List.mem_of_mem_filter hp) uid un adm hpe

theorem authedNonempty_applyOps {ops : List RegOp} {st : SrvState}
    (hst : authedNonempty st.sessions)
    (hops : ∀ op ∈ ops, authOpOk op = true) :
    authedNonempty (applyOps st ops).sessions := by
  induction ops generalizing st with
  | nil => simpa [applyOps] using hst
  | cons op ops ih =>
    have h1 : authedNonempty (applyOp st op).sessions :=
      authedNonempty_applyOp hst (hops op (List.mem_cons_self op ops))
    have h2 : ∀ o ∈ ops, authOpOk o = true := fun o ho =>
      hops o (List.mem_cons_of_mem op ho)
    simpa [applyOps] using ih h1 h2

theorem online_usernames_nodup (sessions : List (Nat × Session)) :
    (online_usernames sessions).Nodup := by
  unfold online_usernames
  exact (List.perm_insertionSort strLeCI _).nodup_iff.mpr (List.nodup_dedup _)

theorem online_usernames_sorted (sessions : List (Nat × Session)) :
    (online_usernames sessions).Pairwise strLeCI := by
  unfold online_usernames
  exact List.sorted_insertionSort strLeCI _

theorem online_usernames_mem {sessions : List (Nat × Session)}
    (hinv : authedNonempty sessions) (u : String) :
    u ∈ online_usernames sessions ↔
      ∃ ws uid adm, (ws, Session.auth uid u adm) ∈ sessions := by
  unfold online_usernames
  rw [(List.perm_insertionSort strLeCI _).mem_iff, List.mem_dedup,
    List.mem_filterMap]
  constructor
  · rintro ⟨p, hp, hpe⟩
    obtain ⟨ws, s⟩ := p
    cases s with
    | unauth => simp [sessionOnlineName] at hpe
    | auth uid un adm =>
      simp only [sessionOnlineName] at hpe
      by_cases hun : un = ""
      · simp [hun] at hpe
      · simp only [hun, if_false, Option.some.injEq] at hpe
        exact ⟨ws, uid, adm, hpe ▸ hp⟩
  · rintro ⟨ws, uid, adm, hp⟩
    refine ⟨(ws, Session.auth uid u adm), hp, ?_⟩
    have hu : u ≠ "" := hinv _ hp uid u adm rfl
    simp [sessionOnlineName, hu]

/-- External cryptographic / encoding primitives used by `db.py` but
implemented outside the repository (`hashlib`, `base64`, `secrets`).
`b64decode s = none` models `base64.urlsafe_b64decode` raising;
`hashPassword` models `hash_password`, whose output depends on a fresh
random salt. -/
structure Crypto where
  pbkdf2 : String → List Nat → Int → List Nat
  b64decode : String → Option (List Nat)
  hashPassword : String → String

/-- `stored.split("$", 3)`: split on at most the first three dollar
signs. -/
def split3dollars (s : String) : List String :=
  pySplitChar (Char.ofNat 36) 3 [] s.data

/-- `pad` inside `verify_password`: `s + "=" * (-len(s) % 4)`. -/
def padB64 (s : String) : String :=
  s ++ String.mk (List.replicate ((4 - s.length % 4) % 4) (Char.ofNat 61))

/-- Python `int(str)`: strip whitespace, optional sign, decimal digits.
(CPython additionally accepts underscore digit separators and non-ASCII
digits; those strings are out of scope of this model.) -/
def pyInt (s : String) : Option Int :=
  let t := pyStrip s
  let core :=
    if pyStartsWith (Char.ofNat 43) t || pyStartsWith (Char.ofNat 45) t
    then pyTail t else t
  if core = "" || !(core.data.all Char.isDigit) then none
  else
    let n : Nat := core.data.foldl (fun acc c => acc * 10 + (c.toNat - 48)) 0
    some (if pyStartsWith (Char.ofNat 45) t then -(n : Int) else (n : Int))

/-- `verify_password` (`db.py` lines 73-88).  The whole body is wrapped in
`try/except: return False`; each fallible step therefore maps its failure
to `false`: unpacking fewer than four fields, a non-integer iteration
count, an undecodable base64 field, and `pbkdf2_hmac` rejecting an
iteration count below 1. -/
def verify_password (cr : Crypto) (password stored : String) : Bool :=
  match split3dollars stored with
  | [algo, itersStr, saltB64, hashB64] =>
    if algo ≠ "pbkdf2_sha256" then false
    else
      match pyInt itersStr with
      | none => false
      | some iters =>
        match cr.b64decode (padB64 saltB64), cr.b64decode (padB64 hashB64) with
        | some salt, some expected =>
          if iters < 1 then false
          else decide (cr.pbkdf2 password salt iters = expected)
        | _, _ => false
  | _ => false

/-- A stored credential parses as the
`pbkdf2_sha256$iterations$salt$hash` format: exactly the conditions under
which `verify_password` reaches the digest comparison. -/
def storedFormatOk (cr : Crypto) (stored : String) : Bool :=
  match split3dollars stored with
  | [algo, itersStr, saltB64, hashB64] =>
    if algo ≠ "pbkdf2_sha256" then false
    else
      match pyInt itersStr with
      | none => false
      | some iters =>
        decide (1 ≤ iters) && (cr.b64decode (padB64 saltB64)).isSome &&
          (cr.b64decode (padB64 hashB64)).isSome
  | _ => false

/-- A row of the `users` table (`db.py`). -/
structure UserRow where
  id : Nat
  username : String
  passwordHash : String
  isAdmin : Bool
  isActive : Bool
deriving DecidableEq, Repr

/-- A row of the `messages` table (`db.py`).  `createdAt` is an opaque
timestamp. -/
structure MsgRow where
  id : Nat
  room : String
  userId : Nat
  kind : String
  sticker : Option String
  replyTo : Option Int
  content : String
  createdAt : Nat
deriving DecidableEq, Repr

/-- The SQLite database: both tables plus the autoincrement counters and
the current clock. -/
structure DB where
  users : List UserRow
  messages : List MsgRow
  nextMsgId : Nat
  nextUserId : Nat
  now : Nat
deriving DecidableEq, Repr

/-- `get_user_by_username` (`db.py` lines 124-128). -/
def get_user_by_username (db : DB) (username : String) : Option UserRow :=
  db.users.find? (fun u => u.username = username)

/-- `authenticate` (`db.py` lines 154-163). -/
def authenticate (cr : Crypto) (db : DB) (username password : String) :
    Option UserRow :=
  let username := pyStrip username
  match get_user_by_username db username with
  | none => none
  | some u =>
    if !u.isActive then none
    else if !verify_password cr (pyOrS password "") u.passwordHash then none
    else some u

/-- `create_user` (`db.py` lines 131-151): username 3..32 characters with
no whitespace, password at least 4 characters, unique username (the
`IntegrityError` of the unique column). -/
def create_user (cr : Crypto) (db : DB) (username password : String)
    (isAdmin isActive : Bool) : Except String (DB × Nat) :=
  let u := pyStrip (pyOrS username "")
  if !(3 ≤ u.length && u.length ≤ 32) || u.data.any Char.isWhitespace then
    .error "Username must be 3..32 chars, no spaces"
  else if (pyOrS password "").length < 4 then
    .error "Password must be at least 4 chars"
  else if db.users.any (fun w => w.username = u) then
    .error "Username already exists"
  else
    let row : UserRow :=
      ⟨db.nextUserId, u, cr.hashPassword password, isAdmin, isActive⟩
    .ok ({ db with users := db.users ++ [row], nextUserId := db.nextUserId + 1 },
      db.nextUserId)

/-- The dict returned by `insert_message` (`db.py` lines 207-215). -/
structure MsgRec where
  id : Nat
  userId : Nat
  kind : String
  sticker : Option String
  replyTo : Option Int
  content : String
  createdAt : Nat
deriving DecidableEq, Repr

/-- `insert_message` (`db.py` lines 166-215).  A kind outside
{text, sticker} is coerced to "text"; a text message must have non-empty
stripped content; stripped content may not exceed 2000 characters; a
sticker message must have a non-empty stripped sticker token.  The stored
content of a sticker message is the empty string. -/
def insert_message (db : DB) (userId : Nat) (content : String)
    (kind : String) (sticker : Option String) (replyTo : Option Int) :
    Except String (DB × MsgRec) :=
  let room := "general"
  let kind := pyLower (pyStrip (pyOrS kind "text"))
  let kind := if kind = "text" || kind = "sticker" then kind else "text"
  let content := pyStrip (pyOrS content "")
  if kind = "text" && content = "" then .error "Empty message"
  else if content.length > 2000 then .error "Message is too long (max 2000 chars)"
  else
    let stickerN := if kind = "sticker" then some (pyStrip (pyOrO sticker "")) else sticker
    if kind = "sticker" && stickerN = some "" then .error "Sticker is empty"
    else
      let storedContent := if kind = "text" then content else ""
      let row : MsgRow :=
        ⟨db.nextMsgId, room, userId, kind, stickerN, replyTo, storedContent, db.now⟩
      let db2 : DB := { db with messages := db.messages ++ [row], nextMsgId := db.nextMsgId + 1 }
      .ok (db2, ⟨db.nextMsgId, userId, kind, stickerN, replyTo, storedContent, db.now⟩)

/-- A row of the history / broadcast payload: the `messages`-`users` join
produced by `fetch_history`, and likewise the `full` dict assembled in the
`send` branch of `handler`. -/
structure MsgFull where
  id : Nat
  userId : Nat
  username : String
  kind : String
  sticker : Option String
  replyTo : Option Int
  content : String
  createdAt : Nat
deriving DecidableEq, Repr

/-- Descending-id comparison used by `order_by(messages.c.id.desc())`. -/
def rowIdGe (a b : MsgRow × String) : Prop :=
  b.1.id ≤ a.1.id

instance : DecidableRel rowIdGe := fun a b =>
  inferInstanceAs (Decidable (b.1.id ≤ a.1.id))

instance : IsTotal (MsgRow × String) rowIdGe :=
  ⟨fun a b => le_total b.1.id a.1.id⟩

instance : IsTrans (MsgRow × String) rowIdGe :=
  ⟨fun _ _ _ h1 h2 => le_trans h2 h1⟩

/-- `fetch_history` (`db.py` lines 218-255): clamp the limit to 1..200,
inner-join messages with users, keep room "general", order by id
descending, take the limit, then reverse into oldest-first order. -/
def fetch_history (db : DB) (limit : Int) : List MsgFull :=
  let n : Nat := (max 1 (min 200 limit)).toNat
  let joined := db.messages.filterMap (fun m =>
    (db.users.find? (fun u => u.id = m.userId)).map (fun u => (m, u.username)))
  let rows :=
    ((List.insertionSort rowIdGe (joined.filter (fun p => p.1.room = "general"))).take n).reverse
  rows.map (fun p =>
    ⟨p.1.id, p.1.userId, p.2, pyOrS p.1.kind "text", p.1.sticker,
      p.1.replyTo, pyOrS p.1.content "", p.1.createdAt⟩)

/-- Server-to-client events (the JSON objects built in `server.py`). -/
inductive Event where
  | loginError (message : String) : Event
  | loginOk (username : String) (isAdmin : Bool) : Event
  | history (messages : List MsgFull) : Event
  | presence (online : List String) : Event
  | message (m : MsgFull) : Event
  | error (message : String) : Event
  | adminCreateUserOk (username : String) : Event
  | adminCreateUserError (message : String) : Event
deriving DecidableEq, Repr

/-- One element of the output trace: a transmission attempt on one
connection (`ws.send`, direct or inside `broadcast`), or a marker
recording that `broadcast` was invoked with a given event. -/
inductive Out where
  | sendTo (c : Nat) (e : Event) : Out
  | bcastStart (e : Event) : Out
deriving DecidableEq, Repr

def eventOf : Out → Event
  | .sendTo _ e => e
  | .bcastStart e => e

def isPresenceE : Event → Bool
  | .presence _ => true
  | _ => false

/-- The cleanup loop `for w in dead: await cleanup_ws(w)` at the end of
`broadcast` (`server.py` lines 47-48), parameterized by the broadcast
function used for the presence re-broadcast inside `cleanup_ws`
(lines 55-58): discard the connection, drop its session, then broadcast
the new presence list. -/
def cleanupListWith (bc : SrvState → Event → SrvState × List Out) :
    SrvState → List Nat → SrvState × List Out
  | st, [] => (st, [])
  | st, w :: ws =>
    let st1 := removeConn st w
    let r2 := bc st1 (Event.presence (online_usernames st1.sessions))
    let r3 := cleanupListWith bc r2.1 ws
    (r3.1, r2.2 ++ r3.2)

/-- `broadcast` (`server.py` lines 39-48): attempt `w.send(payload)` on
every connection in `CONNS`; a connection whose send raises (modelled by
the `fail` predicate) is collected into `dead` and cleaned up afterwards,
each cleanup re-broadcasting presence.  The `Nat` argument is fuel
bounding the recursion depth of the cleanup cascade; the wrapper `bcast`
supplies more fuel than any cascade can consume, since every level of
recursion is preceded by the removal of a failing connection. -/
def broadcastF (fail : Nat → Bool) : Nat → SrvState → Event → SrvState × List Out
  | 0, st, _ => (st, [])
  | n + 1, st, e =>
    let attempts := st.conns.map (fun c => Out.sendTo c e)
    let dead := st.conns.filter fail
    let r := cleanupListWith (fun st2 e2 => broadcastF fail n st2 e2) st dead
    (r.1, (Out.bcastStart e :: attempts) ++ r.2)

def bcast (fail : Nat → Bool) (st : SrvState) (e : Event) : SrvState × List Out :=
  broadcastF fail (2 * st.conns.length + 3) st e

/-- `broadcast_presence` (`server.py` lines 51-52). -/
def broadcast_presence (fail : Nat → Bool) (st : SrvState) : SrvState × List Out :=
  bcast fail st (Event.presence (online_usernames st.sessions))

/-- Client-to-server frames (already JSON-decoded; `server.py` reads the
fields with `msg.get`, so every payload field is optional). -/
inductive Frame where
  | login (username password : Option String) : Frame
  | send (kind content sticker : Option String) (replyTo : Option Int) : Frame
  | whoOnline : Frame
  | adminCreateUser (username password : Option String) (isAdmin : Bool) : Frame
  | join : Frame
  | historyRoom : Frame
  | unknownTy (mtype : String) : Frame
deriving DecidableEq, Repr

/-- `require_authed` (`server.py` lines 61-65): the session must exist and
be authenticated; returns its identity fields. -/
def require_authed (st : SrvState) (ws : Nat) : Option (Nat × String × Bool) :=
  match lookupSess st.sessions ws with
  | some (.auth uid un adm) => some (uid, un, adm)
  | _ => none

/-- The successful continuation of the `send` branch: broadcast the
assembled full message to every connection. -/
def sendOk (fail : Nat → Bool) (st : SrvState) (db2 : DB) (full : MsgFull) :
    SrvState × DB × List Out :=
  ((bcast fail st (Event.message full)).1, db2, (bcast fail st (Event.message full)).2)

/-- The `send` branch of `handler` (`server.py` lines 120-151): normalize
the kind and content exactly as the server does, call `insert_message`,
and either reply with a `Send failed:` error or broadcast the full
message (with the username denormalized from the session). -/
def handleSend (fail : Nat → Bool) (db : DB) (st : SrvState) (ws : Nat)
    (uid : Nat) (un : String)
    (kind content sticker : Option String) (replyTo : Option Int) :
    SrvState × DB × List Out :=
  match insert_message db uid (pyOrO content "") (pyLower (pyStrip (pyOrO kind "text")))
      sticker replyTo with
  | .error e => (st, db, [Out.sendTo ws (.error ("Send failed: " ++ e))])
  | .ok (db2, base) =>
    sendOk fail st db2
      ⟨base.id, uid, un, base.kind, base.sticker, base.replyTo,
        base.content, base.createdAt⟩

/-- The `login` branch of `handler` (`server.py` lines 83-110).  Note
that in the source this branch runs before `require_authed`, so it is
reachable in any session state, and a successful authentication
overwrites `SESSIONS[ws]` wholesale. -/
def loginOkOuts (fail : Nat → Bool) (db : DB) (st1 : SrvState) (ws : Nat)
    (u : UserRow) : SrvState × DB × List Out :=
  ((broadcast_presence fail st1).1, db,
    [Out.sendTo ws (.loginOk u.username u.isAdmin),
     Out.sendTo ws (.history (fetch_history db 80))] ++ (broadcast_presence fail st1).2)

def handleLogin (cr : Crypto) (fail : Nat → Bool) (db : DB) (st : SrvState)
    (ws : Nat) (fu fp : Option String) : SrvState × DB × List Out :=
  match authenticate cr db (pyStrip (pyOrO fu "")) (pyOrO fp "") with
  | none => (st, db, [Out.sendTo ws (.loginError "Invalid credentials or inactive user")])
  | some u =>
    loginOkOuts fail db
      ⟨st.conns, setSess st.sessions ws (.auth u.id u.username u.isAdmin)⟩ ws u

/-- The `admin_create_user` branch of `handler`
(`server.py` lines 159-173). -/
def handleAdminCreate (cr : Crypto) (db : DB) (st : SrvState) (ws : Nat)
    (adm : Bool) (fu fp : Option String) (fa : Bool) : SrvState × DB × List Out :=
  if !adm then (st, db, [Out.sendTo ws (.adminCreateUserError "Admin only")])
  else
    match create_user cr db (pyStrip (pyOrO fu "")) (pyOrO fp "") fa true with
    | .ok (db2, _) => (st, db2, [Out.sendTo ws (.adminCreateUserOk (pyStrip (pyOrO fu "")))])
    | .error e => (st, db, [Out.sendTo ws (.adminCreateUserError e)])

/-- One iteration of the frame loop in `handler`
(`server.py` lines 73-180), processing a single decoded frame from
connection `ws`: the `login` branch first, then the `require_authed`
gate, then the authenticated branches in source order.  Returns the new
registry state, the new database (unchanged unless the Store was called
successfully), and the trace of transmission attempts. -/
def step (cr : Crypto) (fail : Nat → Bool) (db : DB) (st : SrvState)
    (ws : Nat) (f : Frame) : SrvState × DB × List Out :=
  match f with
  | .login fu fp => handleLogin cr fail db st ws fu fp
  | _ =>
    match require_authed st ws with
    | none => (st, db, [Out.sendTo ws (.error "Please login first")])
    | some (uid, un, adm) =>
      match f with
      | .send k c s r => handleSend fail db st ws uid un k c s r
      | .whoOnline => (st, db, [Out.sendTo ws (.presence (online_usernames st.sessions))])
      | .adminCreateUser fu fp fa => handleAdminCreate cr db st ws adm fu fp fa
      | .join => (st, db, [Out.sendTo ws (.error "Rooms are disabled. Single chat only.")])
      | .historyRoom => (st, db, [Out.sendTo ws (.error "Rooms are disabled. Single chat only.")])
      | .unknownTy t => (st, db, [Out.sendTo ws (.error ("Unknown type: " ++ t))])
      | .login _ _ => (st, db, [])

/-! ### Lemmas about the broadcast engine -/

/-- The cleanup cascade only ever removes connections and sessions. -/
theorem cleanupListWith_shrink
    (bc : SrvState → Event → SrvState × List Out)
    (hbc : ∀ st e, ((bc st e).1.conns ⊆ st.conns) ∧
      (∀ p ∈ (bc st e).1.sessions, p ∈ st.sessions)) :
    ∀ ws st, ((cleanupListWith bc st ws).1.conns ⊆ st.conns) ∧
      (∀ p ∈ (cleanupListWith bc st ws).1.sessions, p ∈ st.sessions) := by
  intro ws
  induction ws with
  | nil => intro st; exact ⟨List.Subset.refl _, fun p hp => hp⟩
  | cons w ws ih =>
    intro st
    constructor
    · intro a ha
      have h3 := (ih ((bc (removeConn st w)
        (Event.presence (online_usernames (removeConn st w).sessions))).1)).1 ha
      have h2 := (hbc (removeConn st w) _).1 h3
      exact List.mem_of_mem_filter h2
    · intro p hp
      have h3 := (ih ((bc (removeConn st w)
        (Event.presence (online_usernames (removeConn st w).sessions))).1)).2 p hp
      have h2 := (hbc (removeConn st w) _).2 p h3
      exact List.mem_of_mem_filter h2

theorem broadcastF_shrink (fail : Nat → Bool) :
    ∀ n st e, ((broadcastF fail n st e).1.conns ⊆ st.conns) ∧
      (∀ p ∈ (broadcastF fail n st e).1.sessions, p ∈ st.sessions) := by
  intro n
  induction n with
  | zero => intro st e; exact ⟨List.Subset.refl _, fun p hp => hp⟩
  | succ n ih =>
    intro st e
    have h := cleanupListWith_shrink (fun st2 e2 => broadcastF fail n st2 e2)
      (fun st2 e2 => ih st2 e2) (st.conns.filter fail) st
    exact h

/-- Once a connection has been cleaned up it never reappears: after the
cascade, every connection in the dead list is gone from both `CONNS` and
`SESSIONS`. -/
theorem cleanupListWith_removes
    (bc : SrvState → Event → SrvState × List Out)
    (hbc : ∀ st e, ((bc st e).1.conns ⊆ st.conns) ∧
      (∀ p ∈ (bc st e).1.sessions, p ∈ st.sessions)) :
    ∀ ws st w, w ∈ ws →
      (w ∉ (cleanupListWith bc st ws).1.conns ∧
       ∀ s, (w, s) ∉ (cleanupListWith bc st ws).1.sessions) := by
  intro ws
  induction ws with
  | nil => intro st w hw; cases hw
  | cons w0 ws ih =>
    intro st w hw
    rcases List.mem_cons.mp hw with hw | hw
    · subst hw
      set st1 := removeConn st w with hst1
      set st2 := (bc st1 (Event.presence (online_usernames st1.sessions))).1 with hst2
      constructor
      · intro hmem
        have h3 := (cleanupListWith_shrink bc hbc ws st2).1 hmem
        have h2 := (hbc st1 _).1 h3
        have : w ∈ st.conns.filter (fun c => c ≠ w) := h2
        simp [List.mem_filter] at this
      · intro s hmem
        have h3 := (cleanupListWith_shrink bc hbc ws st2).2 (w, s) hmem
        have h2 := (hbc st1 _).2 (w, s) h3
        have : (w, s) ∈ st.sessions.filter (fun p => p.1 ≠ w) := h2
        simp [List.mem_filter] at this
    · exact ih _ w hw

/-- Every output of the cleanup cascade carries a presence event. -/
theorem cleanupListWith_events
    (bc : SrvState → Event → SrvState × List Out)
    (hbc : ∀ st e x, x ∈ (bc st e).2 →
      eventOf x = e ∨ isPresenceE (eventOf x) = true) :
    ∀ ws st x, x ∈ (cleanupListWith bc st ws).2 →
      isPresenceE (eventOf x) = true := by
  intro ws
  induction ws with
  | nil => intro st x hx; cases hx
  | cons w ws ih =>
    intro st x hx
    rcases List.mem_append.mp hx with hx | hx
    · rcases hbc _ _ x hx with h | h
      · rw [h]; rfl
      · exact h
    · exact ih _ x hx

/-- Every output of a broadcast carries either the broadcast event itself
or a presence event from the cleanup cascade. -/
theorem broadcastF_events (fail : Nat → Bool) :
    ∀ n st e x, x ∈ (broadcastF fail n st e).2 →
      eventOf x = e ∨ isPresenceE (eventOf x) = true := by
  intro n
  induction n with
  | zero => intro st e x hx; cases hx
  | succ n ih =>
    intro st e x hx
    rcases List.mem_append.mp hx with hx | hx
    · rcases List.mem_cons.mp hx with hx | hx
      · left; rw [hx]; rfl
      · obtain ⟨c, _, hc⟩ := List.mem_map.mp hx
        left; rw [← hc]; rfl
    · right
      exact cleanupListWith_events (fun st2 e2 => broadcastF fail n st2 e2)
        (fun st2 e2 x2 hx2 => ih st2 e2 x2 hx2) _ _ x hx

/-- Unfolding of `bcast`: one send attempt per registered connection,
then the cleanup cascade over the connections whose send failed. -/
theorem bcast_eq (fail : Nat → Bool) (st : SrvState) (e : Event) :
    bcast fail st e =
      ((cleanupListWith
          (fun st2 e2 => broadcastF fail (2 * st.conns.length + 2) st2 e2)
          st (st.conns.filter fail)).1,
       (Out.bcastStart e :: st.conns.map (fun c => Out.sendTo c e)) ++
         (cleanupListWith
           (fun st2 e2 => broadcastF fail (2 * st.conns.length + 2) st2 e2)
           st (st.conns.filter fail)).2) := by
  have h : 2 * st.conns.length + 3 = (2 * st.conns.length + 2) + 1 := rfl
  rw [bcast, h, broadcastF]

theorem bcast_snd (fail : Nat → Bool) (st : SrvState) (e : Event) :
    (bcast fail st e).2 =
      (Out.bcastStart e :: st.conns.map (fun c => Out.sendTo c e)) ++
        (cleanupListWith
          (fun st2 e2 => broadcastF fail (2 * st.conns.length + 2) st2 e2)
          st (st.conns.filter fail)).2 := by
  rw [bcast_eq]

theorem bcast_shrink (fail : Nat → Bool) (st : SrvState) (e : Event) :
    ((bcast fail st e).1.conns ⊆ st.conns) ∧
      (∀ p ∈ (bcast fail st e).1.sessions, p ∈ st.sessions) :=
  broadcastF_shrink fail _ st e

theorem bcast_events (fail : Nat → Bool) (st : SrvState) (e : Event) :
    ∀ x ∈ (bcast fail st e).2, eventOf x = e ∨ isPresenceE (eventOf x) = true :=
  fun x hx => broadcastF_events fail _ st e x hx

/-- With no send failures the broadcast leaves the state untouched and
attempts the event once on every registered connection. -/
theorem bcast_nofail {fail : Nat → Bool} (hf : ∀ w, fail w = false)
    (st : SrvState) (e : Event) :
    bcast fail st e =
      (st, Out.bcastStart e :: st.conns.map (fun c => Out.sendTo c e)) := by
  rw [bcast_eq]
  have hdead : st.conns.filter fail = [] :=
    List.filter_eq_nil_iff.mpr (fun a _ => by simp [hf a])
  simp [hdead, cleanupListWith]

/-! ### Lookup lemmas for the session map -/

theorem find?_map_set (l : List (Nat × Session)) (k : Nat) (v : Session) :
    (l.map (fun p => if p.1 = k then (k, v) else p)).find? (fun p => p.1 = k)
      = if l.any (fun p => p.1 = k) then some (k, v) else none := by
  induction l with
  | nil => rfl
  | cons p l ih =>
    by_cases hp : p.1 = k
    · simp [List.find?_cons, hp]
    · simp only [List.map_cons, List.find?_cons, List.any_cons,
        decide_eq_false hp, Bool.false_or, if_neg hp]
      simpa using ih

theorem lookupSess_setSess (l : List (Nat × Session)) (k : Nat) (v : Session) :
    lookupSess (setSess l k v) k = some v := by
  unfold lookupSess setSess
  by_cases hk : l.any (fun p => p.1 = k)
  · rw [if_pos hk, find?_map_set, if_pos hk]
    rfl
  · rw [if_neg hk, List.find?_append]
    have h1 : l.find? (fun p => p.1 = k) = none := by
      rw [List.find?_eq_none]
      intro x hx hcx
      exact hk (List.any_eq_true.mpr ⟨x, hx, hcx⟩)
    rw [h1]
    simp [List.find?_cons]

/-! ### Outcome predicates for `send` frames -/

def isMsgSend : Out → Bool
  | .sendTo _ (.message _) => true
  | _ => false

def errorToPred (ws : Nat) : Out → Bool := fun x =>
  match x with
  | .sendTo c (.error _) => c == ws
  | _ => false

/-- The trace contains an `error` reply addressed to `ws`. -/
def hasErrorTo (ws : Nat) (outs : List Out) : Bool :=
  outs.any (errorToPred ws)

/-- Outcome one of a `send` frame: some message event was broadcast, with
exactly one delivery attempt per registered connection, and no error was
sent to the sender. -/
def sendBroadcastOutcome (st : SrvState) (ws : Nat) (outs : List Out) : Prop :=
  ∃ m, outs.filter isMsgSend = st.conns.map (fun c => Out.sendTo c (Event.message m)) ∧
    (∀ c ∈ st.conns, outs.count (Out.sendTo c (Event.message m)) = 1) ∧
    hasErrorTo ws outs = false

/-- Outcome two of a `send` frame: a single error reply to the sender and
nothing else — in particular no broadcast. -/
def sendErrorOutcome (ws : Nat) (outs : List Out) : Prop :=
  ∃ em, outs = [Out.sendTo ws (Event.error em)]

theorem not_msgSend_of_presence {x : Out}
    (h : isPresenceE (eventOf x) = true) : isMsgSend x = false := by
  cases x with
  | sendTo c e => cases e <;> simp_all [isPresenceE, eventOf, isMsgSend]
  | bcastStart e => rfl

theorem errorToPred_false_of_event {ws : Nat} {x : Out} {m : MsgFull}
    (h : eventOf x = Event.message m ∨ isPresenceE (eventOf x) = true) :
    errorToPred ws x = false := by
  cases x with
  | sendTo c e => cases e <;> simp_all [eventOf, isPresenceE, errorToPred]
  | bcastStart e => rfl

theorem sendOutcomes_disjoint (st : SrvState) (ws : Nat) (outs : List Out) :
    ¬(sendBroadcastOutcome st ws outs ∧ sendErrorOutcome ws outs) := by
  rintro ⟨⟨m, _, _, hA3⟩, ⟨em, hB⟩⟩
  rw [hB] at hA3
  simp [hasErrorTo, errorToPred] at hA3

/-! ### Claim theorems -/

/-- C1: for every registry state reachable by any sequence of register,
authenticate (successful login, hence non-empty username), and unregister
operations, `online_usernames` returns a list with no duplicates, sorted
case-insensitively, whose members are exactly the usernames of sessions
whose authenticated flag is true — no stale entries, no misses. -/
theorem C1_online_usernames_correct (ops : List RegOp)
    (h : ∀ op ∈ ops, authOpOk op = true) :
    (online_usernames (applyOps initState ops).sessions).Nodup ∧
    (online_usernames (applyOps initState ops).sessions).Pairwise strLeCI ∧
    (∀ u, u ∈ online_usernames (applyOps initState ops).sessions ↔
      ∃ ws uid adm,
        (ws, Session.auth uid u adm) ∈ (applyOps initState ops).sessions) := by
  have hinit : authedNonempty (initState).sessions := by
    intro p hp
    cases hp
  have hinv : authedNonempty (applyOps initState ops).sessions :=
    authedNonempty_applyOps hinit h
  exact ⟨online_usernames_nodup _, online_usernames_sorted _,
    fun u => online_usernames_mem hinv u⟩

def opsW : List RegOp :=
  [.register 1, .authenticate 1 1 "Bob" false, .register 2,
   .authenticate 2 2 "alice" true, .register 3,
   .authenticate 3 3 "Bob" false, .unregister 2]

theorem C1_online_usernames_correct_witness :
    (∀ op ∈ opsW, authOpOk op = true) ∧
    ((online_usernames (applyOps initState opsW).sessions).Nodup ∧
     (online_usernames (applyOps initState opsW).sessions).Pairwise strLeCI ∧
     (∀ u, u ∈ online_usernames (applyOps initState opsW).sessions ↔
       ∃ ws uid adm,
         (ws, Session.auth uid u adm) ∈ (applyOps initState opsW).sessions)) :=
  ⟨by decide, C1_online_usernames_correct opsW (by decide)⟩

/-- C2: a `send` frame from an authenticated session has exactly one of
two outcomes — one message event broadcast with a delivery attempt to
every currently-registered connection and no error to the sender, or a
single error reply to the sender and no broadcast — never both, never
neither. -/
theorem C2_send_exactly_one_outcome (cr : Crypto) (fail : Nat → Bool)
    (db : DB) (st : SrvState) (ws uid : Nat) (un : String) (adm : Bool)
    (k c s : Option String) (r : Option Int)
    (hauth : require_authed st ws = some (uid, un, adm))
    (hnodup : st.conns.Nodup) :
    (sendBroadcastOutcome st ws (step cr fail db st ws (.send k c s r)).2.2 ∨
      sendErrorOutcome ws (step cr fail db st ws (.send k c s r)).2.2) ∧
    ¬(sendBroadcastOutcome st ws (step cr fail db st ws (.send k c s r)).2.2 ∧
      sendErrorOutcome ws (step cr fail db st ws (.send k c s r)).2.2) := by
  refine ⟨?_, sendOutcomes_disjoint _ _ _⟩
  have hstep : step cr fail db st ws (.send k c s r) =
      handleSend fail db st ws uid un k c s r := by
    simp [step, hauth]
  rw [hstep]
  rcases hins : insert_message db uid (pyOrO c "") (pyLower (pyStrip (pyOrO k "text"))) s r
    with e | ⟨db2, base⟩
  · right
    refine ⟨"Send failed: " ++ e, ?_⟩
    unfold handleSend
    rw [hins]
  · left
    have hred : handleSend fail db st ws uid un k c s r =
        sendOk fail st db2
          ⟨base.id, uid, un, base.kind, base.sticker, base.replyTo,
            base.content, base.createdAt⟩ := by
      unfold handleSend
      rw [hins]
    rw [hred]
    set full : MsgFull :=
      ⟨base.id, uid, un, base.kind, base.sticker, base.replyTo,
        base.content, base.createdAt⟩ with hfull
    show sendBroadcastOutcome st ws (bcast fail st (Event.message full)).2
    refine ⟨full, ?_, ?_, ?_⟩
    · rw [bcast_snd]
      simp only [List.filter_append, List.filter_cons]
      have h1 : isMsgSend (Out.bcastStart (Event.message full)) = false := rfl
      rw [h1]
      have h2 : (st.conns.map (fun cn => Out.sendTo cn (Event.message full))).filter
          isMsgSend = st.conns.map (fun cn => Out.sendTo cn (Event.message full)) := by
        refine List.filter_eq_self.mpr ?_
        intro x hx
        obtain ⟨cn, _, hcn⟩ := List.mem_map.mp hx
        rw [← hcn]
        rfl
      have h3 : ((cleanupListWith
          (fun st2 e2 => broadcastF fail (2 * st.conns.length + 2) st2 e2)
          st (st.conns.filter fail)).2).filter isMsgSend = [] := by
        refine List.filter_eq_nil_iff.mpr ?_
        intro x hx
        have hp := cleanupListWith_events _
          (fun st2 e2 x2 hx2 => broadcastF_events fail _ st2 e2 x2 hx2) _ _ x hx
        simp [not_msgSend_of_presence hp]
      rw [h2, h3]
      simp
    · intro cn hcn
      rw [bcast_snd]
      rw [List.count_append, List.count_cons_of_ne (by simp)]
      have hinj : Function.Injective (fun cn => Out.sendTo cn (Event.message full)) := by
        intro a b hab
        simpa using hab
      have h1 : (st.conns.map (fun cn => Out.sendTo cn (Event.message full))).count
          (Out.sendTo cn (Event.message full)) = 1 := by
        rw [List.count_map_of_injective _ _ hinj]
        exact List.count_eq_one_of_mem hnodup hcn
      have h2 : ((cleanupListWith
          (fun st2 e2 => broadcastF fail (2 * st.conns.length + 2) st2 e2)
          st (st.conns.filter fail)).2).count (Out.sendTo cn (Event.message full)) = 0 := by
        rw [List.count_eq_zero]
        intro hmem
        have hp := cleanupListWith_events _
          (fun st2 e2 x2 hx2 => broadcastF_events fail _ st2 e2 x2 hx2) _ _ _ hmem
        simp [isPresenceE, eventOf] at hp
      rw [h1, h2]
    · rw [hasErrorTo, bcast_snd, List.any_eq_false]
      intro x hx
      rw [← bcast_snd] at hx
      have hev := bcast_events fail st (.message full) x hx
      simp [errorToPred_false_of_event hev]

def crW : Crypto := ⟨fun _ _ _ => [], fun _ => some [], fun _ => "h"⟩

def neverFail : Nat → Bool := fun _ => false

def dbW : DB :=
  ⟨[⟨2, "bob", "pbkdf2_sha256$1$x$y", false, true⟩], [], 1, 3, 0⟩

def stW : SrvState := ⟨[1], [(1, Session.auth 10 "alice" false)]⟩

theorem C2_send_exactly_one_outcome_witness :
    (require_authed stW 1 = some (10, "alice", false) ∧ stW.conns.Nodup) ∧
    ((sendBroadcastOutcome stW 1
        (step crW neverFail dbW stW 1 (.send none (some "hi") none none)).2.2 ∨
      sendErrorOutcome 1
        (step crW neverFail dbW stW 1 (.send none (some "hi") none none)).2.2) ∧
    ¬(sendBroadcastOutcome stW 1
        (step crW neverFail dbW stW 1 (.send none (some "hi") none none)).2.2 ∧
      sendErrorOutcome 1
        (step crW neverFail dbW stW 1 (.send none (some "hi") none none)).2.2)) :=
  ⟨⟨by decide, by decide⟩,
    C2_send_exactly_one_outcome crW neverFail dbW stW 1 10 "alice" false
      none (some "hi") none none (by decide) (by decide)⟩

def stU : SrvState := ⟨[1], [(1, Session.unauth)]⟩

/-- C7: while a session is unauthenticated, any frame other than `login`
is answered with exactly one "Please login first" error to that
connection, and neither the registry state nor the database changes. -/
theorem C7_unauth_frames_rejected (cr : Crypto) (fail : Nat → Bool)
    (db : DB) (st : SrvState) (ws : Nat) (f : Frame)
    (hunauth : require_authed st ws = none)
    (hnl : ∀ fu fp, f ≠ Frame.login fu fp) :
    step cr fail db st ws f =
      (st, db, [Out.sendTo ws (Event.error "Please login first")]) := by
  cases f with
  | login fu fp => exact absurd rfl (hnl fu fp)
  | send k c s r => simp [step, hunauth]
  | whoOnline => simp [step, hunauth]
  | adminCreateUser fu fp fa => simp [step, hunauth]
  | join => simp [step, hunauth]
  | historyRoom => simp [step, hunauth]
  | unknownTy t => simp [step, hunauth]

theorem C7_unauth_frames_rejected_witness :
    require_authed stU 1 = none ∧
    step crW neverFail dbW stU 1 Frame.whoOnline =
      (stU, dbW, [Out.sendTo 1 (Event.error "Please login first")]) :=
  ⟨by decide, C7_unauth_frames_rejected crW neverFail dbW stU 1 Frame.whoOnline
    (by decide) (fun fu fp h => Frame.noConfusion h)⟩

/-- C8: an authenticated non-admin session sending `admin_create_user`
gets exactly one `admin_create_user_error` with message "Admin only" on
its own connection, and the database — in particular the users table — is
untouched: `create_user` is never reached. -/
theorem C8_admin_only_guard (cr : Crypto) (fail : Nat → Bool)
    (db : DB) (st : SrvState) (ws uid : Nat) (un : String)
    (fu fp : Option String) (fa : Bool)
    (hauth : require_authed st ws = some (uid, un, false)) :
    step cr fail db st ws (.adminCreateUser fu fp fa) =
      (st, db, [Out.sendTo ws (Event.adminCreateUserError "Admin only")]) := by
  simp [step, hauth, handleAdminCreate]

theorem C8_admin_only_guard_witness :
    require_authed stW 1 = some (10, "alice", false) ∧
    step crW neverFail dbW stW 1 (.adminCreateUser (some "zed") (some "pw99") true) =
      (stW, dbW, [Out.sendTo 1 (Event.adminCreateUserError "Admin only")]) :=
  ⟨by decide, C8_admin_only_guard crW neverFail dbW stW 1 10 "alice"
    (some "zed") (some "pw99") true (by decide)⟩

/-- C6 counterexample: the claim says `join`/`history_room` are rejected
with the "Rooms are disabled. Single chat only." error regardless of
session state, but on an unauthenticated session the code's
`require_authed` gate fires first and the reply is "Please login first"
instead. -/
theorem C6_join_unauth_cex :
    (step crW neverFail dbW stU 1 Frame.join).2.2 =
      [Out.sendTo 1 (Event.error "Please login first")] ∧
    Out.sendTo 1 (Event.error "Rooms are disabled. Single chat only.")
      ∉ (step crW neverFail dbW stU 1 Frame.join).2.2 := by
  constructor <;> decide

/-- C6 (amended): `join` and `history_room` are always rejected with a
single error and no state change, but the reply text depends on the
session state: authenticated sessions get
"Rooms are disabled. Single chat only.", unauthenticated sessions get the
generic "Please login first" error from the authentication gate. -/
theorem C6_rooms_disabled_amended (cr : Crypto) (fail : Nat → Bool)
    (db : DB) (st : SrvState) (ws uid : Nat) (un : String) (adm : Bool)
    (f : Frame) (hf : f = Frame.join ∨ f = Frame.historyRoom) :
    (require_authed st ws = some (uid, un, adm) →
      step cr fail db st ws f =
        (st, db, [Out.sendTo ws (Event.error "Rooms are disabled. Single chat only.")])) ∧
    (require_authed st ws = none →
      step cr fail db st ws f =
        (st, db, [Out.sendTo ws (Event.error "Please login first")])) := by
  rcases hf with hf | hf <;> subst hf <;>
    exact ⟨fun h => by simp [step, h], fun h => by simp [step, h]⟩

theorem C6_rooms_disabled_amended_witness :
    (require_authed stW 1 = some (10, "alice", false) →
      step crW neverFail dbW stW 1 Frame.join =
        (stW, dbW, [Out.sendTo 1 (Event.error "Rooms are disabled. Single chat only.")])) ∧
    (require_authed stW 1 = none →
      step crW neverFail dbW stW 1 Frame.join =
        (stW, dbW, [Out.sendTo 1 (Event.error "Please login first")])) :=
  C6_rooms_disabled_amended crW neverFail dbW stW 1 10 "alice" false Frame.join (Or.inl rfl)

/-- C3 counterexample: the claim says a login frame on an already
authenticated session does not re-run authentication or replace the
session identity; in the code the `login` branch runs before the
authentication gate, so a second successful login overwrites the
session's identity fields (here alice's session becomes bob's). -/
theorem C3_relogin_overwrites_cex :
    lookupSess stW.sessions 1 = some (Session.auth 10 "alice" false) ∧
    lookupSess (step crW neverFail dbW stW 1
      (Frame.login (some "bob") (some "pw"))).1.sessions 1 =
      some (Session.auth 2 "bob" false) := by
  constructor <;> decide

/-- C3 (amended): the `login` branch is reachable in every session state;
whenever store authentication succeeds, the session's identity fields are
overwritten with the newly authenticated user's identity — there is no
`AlreadyAuthenticated` guard and no at-most-once transition. (Stated for
runs without transport failures so the presence cascade does not evict
the session again.) -/
theorem C3_relogin_overwrites_amended (cr : Crypto) (fail : Nat → Bool)
    (db : DB) (st : SrvState) (ws : Nat) (fu fp : Option String) (u : UserRow)
    (hfail : ∀ w, fail w = false)
    (hauth : authenticate cr db (pyStrip (pyOrO fu "")) (pyOrO fp "") = some u) :
    lookupSess (step cr fail db st ws (.login fu fp)).1.sessions ws =
      some (Session.auth u.id u.username u.isAdmin) := by
  have hstep : step cr fail db st ws (.login fu fp) =
      handleLogin cr fail db st ws fu fp := rfl
  rw [hstep]
  have hred : handleLogin cr fail db st ws fu fp =
      loginOkOuts fail db
        ⟨st.conns, setSess st.sessions ws (.auth u.id u.username u.isAdmin)⟩ ws u := by
    unfold handleLogin
    rw [hauth]
  rw [hred]
  unfold loginOkOuts broadcast_presence
  rw [bcast_nofail hfail]
  exact lookupSess_setSess _ _ _

theorem C3_relogin_overwrites_amended_witness :
    authenticate crW dbW "bob" "pw" =
      some ⟨2, "bob", "pbkdf2_sha256$1$x$y", false, true⟩ ∧
    lookupSess (step crW neverFail dbW stW 1
      (Frame.login (some "bob") (some "pw"))).1.sessions 1 =
      some (Session.auth 2 "bob" false) :=
  ⟨by decide, C3_relogin_overwrites_amended crW neverFail dbW stW 1
    (some "bob") (some "pw") ⟨2, "bob", "pbkdf2_sha256$1$x$y", false, true⟩
    (fun _ => rfl) (by decide)⟩

/-- The exact conditions under which `insert_message` raises, extracted
from `db.py` lines 177-190: after coercing the kind (unknown kinds become
"text"), reject a text message with empty stripped content, any content
longer than 2000 characters, and a sticker message with an empty stripped
sticker token. -/
def insertRejects (content kind : String) (sticker : Option String) : Bool :=
  let kind := pyLower (pyStrip (pyOrS kind "text"))
  let kind := if kind = "text" || kind = "sticker" then kind else "text"
  let content := pyStrip (pyOrS content "")
  if kind = "text" && content = "" then true
  else if content.length > 2000 then true
  else
    let stickerN := if kind = "sticker" then some (pyStrip (pyOrO sticker "")) else sticker
    if kind = "sticker" && stickerN = some "" then true
    else false

theorem insert_message_error_cases (db : DB) (uid : Nat) (c k : String)
    (s : Option String) (r : Option Int) :
    (insertRejects c k s = true ∧ ∃ e, insert_message db uid c k s r = .error e) ∨
    (insertRejects c k s = false ∧ ∃ v, insert_message db uid c k s r = .ok v) := by
  unfold insert_message insertRejects
  dsimp only
  split_ifs <;>
    first
      | exact Or.inl ⟨rfl, _, rfl⟩
      | exact Or.inr ⟨rfl, _, rfl⟩

/-- The rejection condition stated by the claim (spec side).  Modelled
from the spec: "Validate kind ∈ {text,sticker}; validate content/sticker
non-empty per kind and length bound" — a kind outside {text, sticker} is
itself a rejection cause. -/
def claimedSendReject (kind content sticker : Option String) : Bool :=
  ((!(pyLower (pyStrip (pyOrO kind "text")) == "text"
      || pyLower (pyStrip (pyOrO kind "text")) == "sticker"))
   || (pyLower (pyStrip (pyOrO kind "text")) == "text"
      && pyStrip (pyOrO content "") == "")
   || decide ((pyStrip (pyOrO content "")).length > 2000)
   || (pyLower (pyStrip (pyOrO kind "text")) == "sticker"
      && pyStrip (pyOrO sticker "") == ""))

/-- C4 counterexample: per the claim a `send` whose kind is outside
{text, sticker} is rejected with an error; in the code `insert_message`
silently coerces such a kind to "text", so `kind="banana", content="hi"`
is accepted and broadcast with no error reply to the sender. -/
theorem C4_unknown_kind_accepted_cex :
    claimedSendReject (some "banana") (some "hi") none = true ∧
    hasErrorTo 1 (step crW neverFail dbW stW 1
      (.send (some "banana") (some "hi") none none)).2.2 = false := by
  constructor <;> decide

/-- C4 (amended): an authenticated `send` is answered with an error reply
if and only if `insert_message`'s validation fails, i.e. exactly when —
after normalizing the kind and coercing any kind outside {text, sticker}
to "text" — the kind is text with empty stripped content, or the stripped
content exceeds 2000 characters, or the kind is sticker with an empty
sticker token.  A kind outside {text, sticker} is treated as text, not
rejected. -/
theorem C4_send_error_iff_amended (cr : Crypto) (fail : Nat → Bool)
    (db : DB) (st : SrvState) (ws uid : Nat) (un : String) (adm : Bool)
    (k c s : Option String) (r : Option Int)
    (hauth : require_authed st ws = some (uid, un, adm)) :
    hasErrorTo ws (step cr fail db st ws (.send k c s r)).2.2 =
      insertRejects (pyOrO c "") (pyLower (pyStrip (pyOrO k "text"))) s := by
  have hstep : step cr fail db st ws (.send k c s r) =
      handleSend fail db st ws uid un k c s r := by
    simp [step, hauth]
  rw [hstep]
  rcases insert_message_error_cases db uid (pyOrO c "")
      (pyLower (pyStrip (pyOrO k "text"))) s r with
    ⟨hrej, e, hins⟩ | ⟨hrej, v, hins⟩
  · rw [hrej]
    unfold handleSend
    rw [hins]
    simp [hasErrorTo, errorToPred]
  · rw [hrej]
    obtain ⟨db2, base⟩ := v
    have hred : handleSend fail db st ws uid un k c s r =
        sendOk fail st db2
          ⟨base.id, uid, un, base.kind, base.sticker, base.replyTo,
            base.content, base.createdAt⟩ := by
      unfold handleSend
      rw [hins]
    rw [hred]
    show hasErrorTo ws
      (bcast fail st (Event.message
        ⟨base.id, uid, un, base.kind, base.sticker, base.replyTo,
          base.content, base.createdAt⟩)).2 = false
    rw [hasErrorTo, List.any_eq_false]
    intro x hx
    have hev := bcast_events fail st _ x hx
    simp [errorToPred_false_of_event hev]

theorem C4_send_error_iff_amended_witness :
    require_authed stW 1 = some (10, "alice", false) ∧
    hasErrorTo 1 (step crW neverFail dbW stW 1
      (.send (some "sticker") none none none)).2.2 =
      insertRejects (pyOrO none "") (pyLower (pyStrip (pyOrO (some "sticker") "text"))) none :=
  ⟨by decide, C4_send_error_iff_amended crW neverFail dbW stW 1 10 "alice" false
    (some "sticker") none none none (by decide)⟩

/-! ### History lemmas (C5) -/

/-- All history payloads occurring in an output trace. -/
def histEvents (outs : List Out) : List (List MsgFull) :=
  outs.filterMap (fun x =>
    match eventOf x with
    | .history msgs => some msgs
    | _ => none)

theorem fetch_history_sorted (db : DB) (limit : Int) :
    (fetch_history db limit).Pairwise (fun a b => a.id ≤ b.id) := by
  unfold fetch_history
  dsimp only
  rw [List.pairwise_map, List.pairwise_reverse]
  refine List.Pairwise.sublist (List.take_sublist _ _) ?_
  exact List.sorted_insertionSort rowIdGe _

theorem fetch_history_length (db : DB) (limit : Int) :
    (fetch_history db limit).length ≤ (max 1 (min 200 limit)).toNat := by
  unfold fetch_history
  dsimp only
  rw [List.length_map, List.length_reverse, List.length_take]
  exact min_le_left _ _

theorem fetch_history_recent (db : DB) (limit : Int) :
    ∀ m ∈ db.messages, m.room = "general" →
      (∃ u ∈ db.users, u.id = m.userId) →
      (m.id ∈ (fetch_history db limit).map (fun x => x.id) ∨
       ∀ x ∈ fetch_history db limit, m.id ≤ x.id) := by
  intro m hm hroom hex
  obtain ⟨u1, hfind⟩ : ∃ u1, db.users.find? (fun u => u.id = m.userId) = some u1 := by
    obtain ⟨u0, hu0, hid0⟩ := hex
    have : (db.users.find? (fun u => u.id = m.userId)).isSome :=
      List.find?_isSome.mpr ⟨u0, hu0, by simp [hid0]⟩
    exact Option.isSome_iff_exists.mp this
  unfold fetch_history
  dsimp only
  set joined := db.messages.filterMap (fun m2 =>
    (db.users.find? (fun u => u.id = m2.userId)).map (fun u => (m2, u.username))) with hjoined
  set filtered := joined.filter (fun p => p.1.room = "general") with hfiltered
  set sorted := List.insertionSort rowIdGe filtered with hsorted
  set n := (max 1 (min 200 limit)).toNat with hn
  have hp : (m, u1.username) ∈ joined := by
    rw [hjoined]
    exact List.mem_filterMap.mpr ⟨m, hm, by rw [hfind]; rfl⟩
  have hfil : (m, u1.username) ∈ filtered := by
    rw [hfiltered]
    exact List.mem_filter.mpr ⟨hp, by simp [hroom]⟩
  have hsor : (m, u1.username) ∈ sorted := by
    rw [hsorted]
    exact (List.mem_insertionSort rowIdGe).mpr hfil
  have hpw : (sorted.take n ++ sorted.drop n).Pairwise rowIdGe := by
    rw [List.take_append_drop]
    rw [hsorted]
    exact List.sorted_insertionSort rowIdGe _
  rcases List.mem_append.mp ((List.take_append_drop n sorted) ▸ hsor) with htake | hdrop
  · left
    refine List.mem_map.mpr ⟨⟨m.id, m.userId, u1.username, pyOrS m.kind "text",
      m.sticker, m.replyTo, pyOrS m.content "", m.createdAt⟩, ?_, rfl⟩
    exact List.mem_map.mpr ⟨(m, u1.username), List.mem_reverse.mpr htake, rfl⟩
  · right
    intro x hx
    obtain ⟨p2, hp2, hgp2⟩ := List.mem_map.mp hx
    have hp2t : p2 ∈ sorted.take n := List.mem_reverse.mp hp2
    have h3 := (List.pairwise_append.mp hpw).2.2 p2 hp2t (m, u1.username) hdrop
    have hxid : x.id = p2.1.id := by rw [← hgp2]
    rw [hxid]
    exact h3

theorem histEvents_bcast (fail : Nat → Bool) (st : SrvState) (e : Event)
    (he : ∀ msgs, e ≠ Event.history msgs) :
    histEvents (bcast fail st e).2 = [] := by
  unfold histEvents
  rw [List.filterMap_eq_nil_iff]
  intro x hx
  rcases bcast_events fail st e x hx with hev | hev
  · rw [hev]
    cases e with
    | history msgs => exact absurd rfl (he msgs)
    | loginError m => rfl
    | loginOk a b => rfl
    | presence ns => rfl
    | message m => rfl
    | error m => rfl
    | adminCreateUserOk a => rfl
    | adminCreateUserError a => rfl
  · rcases hev2 : eventOf x with m | ⟨a, b⟩ | msgs | ns | m | m | a | a <;>
      first
        | rfl
        | (rw [hev2] at hev; cases hev)

theorem step_history_bounded (cr : Crypto) (fail : Nat → Bool) (db : DB)
    (st : SrvState) (ws : Nat) (f : Frame) :
    ∀ msgs ∈ histEvents (step cr fail db st ws f).2.2, msgs.length ≤ 80 := by
  have hb80 : (fetch_history db 80).length ≤ 80 := by
    have := fetch_history_length db 80
    simpa using this
  cases f with
  | login fu fp =>
    show ∀ msgs ∈ histEvents (handleLogin cr fail db st ws fu fp).2.2, msgs.length ≤ 80
    rcases hlog : authenticate cr db (pyStrip (pyOrO fu "")) (pyOrO fp "") with _ | u
    · unfold handleLogin
      rw [hlog]
      intro msgs hmem
      simp [histEvents, eventOf] at hmem
    · unfold handleLogin
      rw [hlog]
      intro msgs hmem
      unfold loginOkOuts at hmem
      unfold histEvents at hmem
      rw [List.filterMap_append] at hmem
      rcases List.mem_append.mp hmem with hmem | hmem
      · simp only [List.filterMap_cons, eventOf] at hmem
        rcases List.mem_singleton.mp (by simpa using hmem) with h
        rw [h]
        exact hb80
      · have : histEvents (broadcast_presence fail
            ⟨st.conns, setSess st.sessions ws (.auth u.id u.username u.isAdmin)⟩).2 = [] := by
          unfold broadcast_presence
          exact histEvents_bcast _ _ _ (fun msgs h => Event.noConfusion h)
        unfold histEvents at this
        rw [this] at hmem
        cases hmem
  | send k c s r =>
    rcases hra : require_authed st ws with _ | ⟨uid, un, adm⟩
    · intro msgs hmem
      simp [step, hra, histEvents, eventOf] at hmem
    · have hstep : step cr fail db st ws (.send k c s r) =
          handleSend fail db st ws uid un k c s r := by
        simp [step, hra]
      rw [hstep]
      rcases hins : insert_message db uid (pyOrO c "") (pyLower (pyStrip (pyOrO k "text"))) s r
        with e | ⟨db2, base⟩
      · have hred : handleSend fail db st ws uid un k c s r =
            (st, db, [Out.sendTo ws (.error ("Send failed: " ++ e))]) := by
          unfold handleSend
          rw [hins]
        rw [hred]
        intro msgs hmem
        simp [histEvents, eventOf] at hmem
      · have hred : handleSend fail db st ws uid un k c s r =
            sendOk fail st db2
              ⟨base.id, uid, un, base.kind, base.sticker, base.replyTo,
                base.content, base.createdAt⟩ := by
          unfold handleSend
          rw [hins]
        rw [hred]
        intro msgs hmem
        have : histEvents (bcast fail st (Event.message
            ⟨base.id, uid, un, base.kind, base.sticker, base.replyTo,
              base.content, base.createdAt⟩)).2 = [] :=
          histEvents_bcast _ _ _ (fun msgs h => Event.noConfusion h)
        unfold sendOk at hmem
        rw [this] at hmem
        cases hmem
  | whoOnline =>
    rcases hra : require_authed st ws with _ | ⟨uid, un, adm⟩ <;>
      intro msgs hmem <;>
      simp [step, hra, histEvents, eventOf] at hmem
  | adminCreateUser fu fp fa =>
    rcases hra : require_authed st ws with _ | ⟨uid, un, adm⟩
    · intro msgs hmem
      simp [step, hra, histEvents, eventOf] at hmem
    · have hstep : step cr fail db st ws (.adminCreateUser fu fp fa) =
          handleAdminCreate cr db st ws adm fu fp fa := by
        simp [step, hra]
      rw [hstep]
      by_cases hadm : adm
      · rcases hcre : create_user cr db (pyStrip (pyOrO fu "")) (pyOrO fp "") fa true
          with e | ⟨db2, nid⟩ <;>
          · intro msgs hmem
            unfold handleAdminCreate at hmem
            rw [hcre] at hmem
            simp [hadm, histEvents, eventOf] at hmem
      · intro msgs hmem
        unfold handleAdminCreate at hmem
        simp [hadm, histEvents, eventOf] at hmem
  | join =>
    rcases hra : require_authed st ws with _ | ⟨uid, un, adm⟩ <;>
      intro msgs hmem <;>
      simp [step, hra, histEvents, eventOf] at hmem
  | historyRoom =>
    rcases hra : require_authed st ws with _ | ⟨uid, un, adm⟩ <;>
      intro msgs hmem <;>
      simp [step, hra, histEvents, eventOf] at hmem
  | unknownTy t =>
    rcases hra : require_authed st ws with _ | ⟨uid, un, adm⟩ <;>
      intro msgs hmem <;>
      simp [step, hra, histEvents, eventOf] at hmem

/-- C5: `fetch_history` returns messages oldest-first (ascending ids),
at most `clamp(limit, 1, 200)` of them, and only the most recent ones
(any stored message in the room either appears or has an id no larger
than everything returned); the login handler requests history with
limit 80, so every history payload the server ever emits holds at most
80 messages. -/
theorem C5_fetch_history_spec :
    (∀ (db : DB) (limit : Int),
      (fetch_history db limit).Pairwise (fun a b => a.id ≤ b.id) ∧
      (fetch_history db limit).length ≤ (max 1 (min 200 limit)).toNat ∧
      (∀ m ∈ db.messages, m.room = "general" →
        (∃ u ∈ db.users, u.id = m.userId) →
        (m.id ∈ (fetch_history db limit).map (fun x => x.id) ∨
         ∀ x ∈ fetch_history db limit, m.id ≤ x.id))) ∧
    (∀ (cr : Crypto) (fail : Nat → Bool) (db : DB) (st : SrvState) (ws : Nat)
      (f : Frame), ∀ msgs ∈ histEvents (step cr fail db st ws f).2.2,
        msgs.length ≤ 80) :=
  ⟨fun db limit => ⟨fetch_history_sorted db limit, fetch_history_length db limit,
    fetch_history_recent db limit⟩, step_history_bounded⟩

theorem C5_fetch_history_spec_witness :
    (fetch_history dbW 5).Pairwise (fun a b => a.id ≤ b.id) ∧
    (fetch_history dbW 5).length ≤ (max 1 (min 200 (5 : Int))).toNat ∧
    (∀ m ∈ dbW.messages, m.room = "general" →
      (∃ u ∈ dbW.users, u.id = m.userId) →
      (m.id ∈ (fetch_history dbW 5).map (fun x => x.id) ∨
       ∀ x ∈ fetch_history dbW 5, m.id ≤ x.id)) :=
  C5_fetch_history_spec.1 dbW 5

/-! ### Broadcast failure isolation (C9) -/

theorem broadcastF_start (fail : Nat → Bool) (n : Nat) (st : SrvState) (e : Event) :
    Out.bcastStart e ∈ (broadcastF fail (n + 1) st e).2 := by
  rw [broadcastF]
  exact List.mem_append.mpr (Or.inl (List.mem_cons_self _ _))

theorem cleanupListWith_presence
    (bc : SrvState → Event → SrvState × List Out)
    (hbc : ∀ st e, Out.bcastStart e ∈ (bc st e).2)
    (st : SrvState) (ws : List Nat) (hne : ws ≠ []) :
    ∃ ns, Out.bcastStart (Event.presence ns) ∈ (cleanupListWith bc st ws).2 := by
  cases ws with
  | nil => exact absurd rfl hne
  | cons w0 ws =>
    exact ⟨_, List.mem_append.mpr (Or.inl (hbc _ _))⟩

/-- C9: for every broadcast, a send failure on one connection does not
prevent the delivery attempt on any other connection — every registered
connection gets an attempt — and every connection whose send fails is
afterwards gone from both the connection set and the session map, with a
presence broadcast triggered by the cleanup. -/
theorem C9_broadcast_failure_isolation (fail : Nat → Bool) (st : SrvState)
    (e : Event) :
    (∀ c ∈ st.conns, Out.sendTo c e ∈ (bcast fail st e).2) ∧
    (∀ w ∈ st.conns, fail w = true →
      w ∉ (bcast fail st e).1.conns ∧
      (∀ s, (w, s) ∉ (bcast fail st e).1.sessions) ∧
      (∃ ns, Out.bcastStart (Event.presence ns) ∈ (bcast fail st e).2)) := by
  constructor
  · intro c hc
    rw [bcast_snd]
    exact List.mem_append.mpr (Or.inl (List.mem_cons.mpr
      (Or.inr (List.mem_map.mpr ⟨c, hc, rfl⟩))))
  · intro w hw hfw
    have hdead : w ∈ st.conns.filter fail := List.mem_filter.mpr ⟨hw, hfw⟩
    have hrem := cleanupListWith_removes
      (fun st2 e2 => broadcastF fail (2 * st.conns.length + 2) st2 e2)
      (fun st2 e2 => broadcastF_shrink fail (2 * st.conns.length + 2) st2 e2)
      (st.conns.filter fail) st w hdead
    refine ⟨?_, ?_, ?_⟩
    · rw [bcast_eq]
      exact hrem.1
    · rw [bcast_eq]
      exact hrem.2
    · rw [bcast_snd]
      obtain ⟨ns, hns⟩ := cleanupListWith_presence
        (fun st2 e2 => broadcastF fail (2 * st.conns.length + 2) st2 e2)
        (fun st2 e2 => broadcastF_start fail (2 * st.conns.length + 1) st2 e2)
        st (st.conns.filter fail) (List.ne_nil_of_mem hdead)
      exact ⟨ns, List.mem_append.mpr (Or.inr hns)⟩

def failW : Nat → Bool := fun w => w == 2

def stW2 : SrvState :=
  ⟨[1, 2], [(1, Session.auth 10 "alice" false), (2, Session.auth 11 "carol" false)]⟩

theorem C9_broadcast_failure_isolation_witness :
    Out.sendTo 1 (Event.presence ["zoe"]) ∈ (bcast failW stW2 (Event.presence ["zoe"])).2 ∧
    Out.sendTo 2 (Event.presence ["zoe"]) ∈ (bcast failW stW2 (Event.presence ["zoe"])).2 ∧
    2 ∉ (bcast failW stW2 (Event.presence ["zoe"])).1.conns ∧
    (∀ s, (2, s) ∉ (bcast failW stW2 (Event.presence ["zoe"])).1.sessions) ∧
    (∃ ns, Out.bcastStart (Event.presence ns) ∈ (bcast failW stW2 (Event.presence ["zoe"])).2) :=
  ⟨(C9_broadcast_failure_isolation failW stW2 (Event.presence ["zoe"])).1 1 (by decide),
   (C9_broadcast_failure_isolation failW stW2 (Event.presence ["zoe"])).1 2 (by decide),
   ((C9_broadcast_failure_isolation failW stW2 (Event.presence ["zoe"])).2 2 (by decide) (by decide)).1,
   ((C9_broadcast_failure_isolation failW stW2 (Event.presence ["zoe"])).2 2 (by decide) (by decide)).2.1,
   ((C9_broadcast_failure_isolation failW stW2 (Event.presence ["zoe"])).2 2 (by decide) (by decide)).2.2⟩

/-! ### Credential verification robustness (C10) -/

/-- C10: `verify_password` is total by construction (it returns a `Bool`
for every input) and returns `false` — never raising, never granting
access — for every stored value that does not parse as the
`pbkdf2_sha256$iterations$salt$hash` format, whatever the PBKDF2 and
base64 primitives do. -/
theorem C10_verify_password_unparseable (cr : Crypto) (password stored : String)
    (h : storedFormatOk cr stored = false) :
    verify_password cr password stored = false := by
  unfold storedFormatOk at h
  unfold verify_password
  generalize hsp : split3dollars stored = L at h ⊢
  rcases L with _ | ⟨a, _ | ⟨b, _ | ⟨c2, _ | ⟨d, _ | ⟨e2, t⟩⟩⟩⟩⟩ <;> try rfl
  by_cases ha : a ≠ "pbkdf2_sha256"
  · simp [ha]
  · rw [not_not] at ha
    subst ha
    simp only [ne_eq, not_true_eq_false, if_false, Bool.false_eq_true] at h ⊢
    rcases hint : pyInt b with _ | iters
    · rfl
    · simp only [hint] at h
      rcases hsalt : cr.b64decode (padB64 c2) with _ | salt <;>
        rcases hhash : cr.b64decode (padB64 d) with _ | hashv
      · rfl
      · rfl
      · rfl
      · simp only [hsalt, hhash, Option.isSome_some, Bool.and_true] at h
        have hlt : iters < 1 := by
          have := of_decide_eq_false h
          omega
        simp [hlt]

theorem C10_verify_password_unparseable_witness :
    storedFormatOk crW "plainpassword" = false ∧
    verify_password crW "pw" "plainpassword" = false :=
  ⟨by decide, C10_verify_password_unparseable crW "pw" "plainpassword" (by decide)⟩

end Messenger
